import Mathlib

/-!
Verification of the ecosnail/flat 2D geometry library
(include/ecosnail/flat/vector.hpp, include/ecosnail/flat/point.hpp).

The library provides two value types, Vector<T> and Point<T>, each a pair of
components x, y of a numeric element type T, together with componentwise
arithmetic, a componentwise dominance order, a separate lexicographic
sort-key order (std::less specializations), indexed component access guarded
by assert(idx < 2), and the geometry helpers length and normalized.

Embedding conventions:
  * The templates are embedded as Lean definitions generic over the element
    type, with the arithmetic and order operations of the element type
    supplied by type classes; claims quantified over "any admitted element
    type" are settled over such generic statements or over the instantiations
    at Int (C++ int, modelled as unbounded ℤ, signed-overflow UB disregarded)
    and ℝ (exact-arithmetic model of a floating element type).
  * C++ integer division truncates toward zero, which is Int.tdiv in Lean
    (Lean's / on Int is Euclidean division and is NOT the C++ semantics), so
    the int instantiation of operator/ uses Int.tdiv explicitly.
  * std::sqrt on the int instantiation promotes to double, takes the square
    root and converts the result back to int by truncation toward zero; for
    the argument sizes appearing here the double square root is exact, so
    this is the integer square root Nat.sqrt of the (nonnegative) sum of
    squares.
  * The assert(idx < 2) guard of operator[] is embedded by returning an
    Option: none is the aborted (assertion-failed) execution.
-/

namespace ecosnail.flat

/-- Vector<T> from vector.hpp: a free displacement with components x, y.
Default construction is Vector.mk 0 0 at a numeric element type. -/
@[ext]
structure Vector (α : Type) where
  x : α
  y : α
  deriving DecidableEq

/-- Point<T> from point.hpp: a positional quantity with components x, y. -/
@[ext]
structure Point (α : Type) where
  x : α
  y : α
  deriving DecidableEq

variable {α : Type}

/-- Componentwise vector addition: free operator+(const Vector<L>&, const
Vector<R>&) from vector.hpp, at a single element type. -/
def Vector.add [Add α] (lhs rhs : Vector α) : Vector α :=
  ⟨lhs.x + rhs.x, lhs.y + rhs.y⟩

/-- Componentwise vector subtraction: free operator-(const Vector<L>&, const
Vector<R>&) from vector.hpp, at a single element type. -/
def Vector.sub [Sub α] (lhs rhs : Vector α) : Vector α :=
  ⟨lhs.x - rhs.x, lhs.y - rhs.y⟩

/-- Scalar multiplication: free operator*(const Vector<T>&, const U&) from
vector.hpp, at a single element type. -/
def Vector.mulScalar [Mul α] (vector : Vector α) (scalar : α) : Vector α :=
  ⟨vector.x * scalar, vector.y * scalar⟩

/-- Scalar division: free operator/(const Vector<T>&, const U&) from
vector.hpp, at a single element type, using the element type's division. -/
def Vector.divScalar [Div α] (vector : Vector α) (scalar : α) : Vector α :=
  ⟨vector.x / scalar, vector.y / scalar⟩

/-- Scalar division instantiated at T = int: C++ built-in integer division
truncates toward zero, which is Int.tdiv. -/
def Vector.divScalarInt (vector : Vector Int) (scalar : Int) : Vector Int :=
  ⟨Int.tdiv vector.x scalar, Int.tdiv vector.y scalar⟩

/-- Compound assignment operator+= of Vector from vector.hpp: mutates the
left operand componentwise; the returned value is the mutated left operand
(the C++ reference return aliases it). -/
def Vector.addAssign [Add α] (self rhs : Vector α) : Vector α :=
  ⟨self.x + rhs.x, self.y + rhs.y⟩

/-- Compound assignment operator-= of Vector from vector.hpp. -/
def Vector.subAssign [Sub α] (self rhs : Vector α) : Vector α :=
  ⟨self.x - rhs.x, self.y - rhs.y⟩

/-- Compound assignment operator*= of Vector from vector.hpp. -/
def Vector.mulAssign [Mul α] (self : Vector α) (scalar : α) : Vector α :=
  ⟨self.x * scalar, self.y * scalar⟩

/-- Compound assignment operator/= of Vector from vector.hpp. -/
def Vector.divAssign [Div α] (self : Vector α) (scalar : α) : Vector α :=
  ⟨self.x / scalar, self.y / scalar⟩

/-- Dominance comparison operator<=(const Vector<T>&, const Vector<T>&) from
vector.hpp: both components compare less-or-equal. -/
def Vector.le [LE α] (lhs rhs : Vector α) : Prop :=
  lhs.x ≤ rhs.x ∧ lhs.y ≤ rhs.y

/-- Strict dominance operator<(const Vector<T>&, const Vector<T>&) from
vector.hpp: lhs <= rhs && lhs != rhs. -/
def Vector.lt [LE α] (lhs rhs : Vector α) : Prop :=
  Vector.le lhs rhs ∧ lhs ≠ rhs

/-- Sort-key comparison std::less<Vector<T>> from vector.hpp:
std::tie(lhs.x, lhs.y) < std::tie(rhs.x, rhs.y), the lexicographic tuple
comparison synthesized from the element type's operator<. -/
def Vector.keyLess [LT α] (lhs rhs : Vector α) : Prop :=
  lhs.x < rhs.x ∨ (¬ rhs.x < lhs.x ∧ lhs.y < rhs.y)

/-- Array subscript Vector::operator[] from vector.hpp: asserts idx < 2 and
returns the component selected by the member-pointer table {&x, &y}.
The assertion-failed execution is embedded as none. -/
def Vector.subscript (v : Vector α) (idx : Nat) : Option α :=
  if idx < 2 then some (if idx = 0 then v.x else v.y) else none

/-- Translation operator+(const Point<L>&, const Vector<R>&) from point.hpp. -/
def Point.addVector [Add α] (lhs : Point α) (rhs : Vector α) : Point α :=
  ⟨lhs.x + rhs.x, lhs.y + rhs.y⟩

/-- Translation operator-(const Point<L>&, const Vector<R>&) from point.hpp. -/
def Point.subVector [Sub α] (lhs : Point α) (rhs : Vector α) : Point α :=
  ⟨lhs.x - rhs.x, lhs.y - rhs.y⟩

/-- Displacement operator-(const Point<L>&, const Point<R>&) from point.hpp:
the difference of two points is a Vector. -/
def Point.subPoint [Sub α] (lhs rhs : Point α) : Vector α :=
  ⟨lhs.x - rhs.x, lhs.y - rhs.y⟩

/-- Compound assignment Point::operator+=(const Vector<U>&) from point.hpp. -/
def Point.addAssign [Add α] (self : Point α) (rhs : Vector α) : Point α :=
  ⟨self.x + rhs.x, self.y + rhs.y⟩

/-- Compound assignment Point::operator-=(const Vector<U>&) from point.hpp. -/
def Point.subAssign [Sub α] (self : Point α) (rhs : Vector α) : Point α :=
  ⟨self.x - rhs.x, self.y - rhs.y⟩

/-- Dominance comparison operator<=(const Point<T>&, const Point<T>&) from
point.hpp. -/
def Point.le [LE α] (lhs rhs : Point α) : Prop :=
  lhs.x ≤ rhs.x ∧ lhs.y ≤ rhs.y

/-- Strict dominance operator<(const Point<T>&, const Point<T>&) from
point.hpp: lhs <= rhs && lhs != rhs. -/
def Point.lt [LE α] (lhs rhs : Point α) : Prop :=
  Point.le lhs rhs ∧ lhs ≠ rhs

/-- Sort-key comparison std::less<Point<T>> from point.hpp:
std::tie(lhs.x, lhs.y) < std::tie(rhs.x, rhs.y). -/
def Point.keyLess [LT α] (lhs rhs : Point α) : Prop :=
  lhs.x < rhs.x ∨ (¬ rhs.x < lhs.x ∧ lhs.y < rhs.y)

/-- Array subscript Point::operator[] from point.hpp, embedded like
Vector.subscript. -/
def Point.subscript (p : Point α) (idx : Nat) : Option α :=
  if idx < 2 then some (if idx = 0 then p.x else p.y) else none

/-- Geometry helper length(const Vector<T>&) from vector.hpp at a floating
element type, modelled with exact real arithmetic: sqrt(x*x + y*y). -/
noncomputable def lengthReal (v : Vector ℝ) : ℝ :=
  Real.sqrt (v.x * v.x + v.y * v.y)

/-- Geometry helper length(const Vector<T>&) from vector.hpp at T = int:
std::sqrt promotes the (nonnegative) sum of squares to double, and the
result converts back to int by truncation, giving the integer square root. -/
def lengthInt (v : Vector Int) : Int :=
  Int.ofNat (Nat.sqrt (v.x * v.x + v.y * v.y).toNat)

/-- Geometry helper normalized(const Vector<T>&) from vector.hpp at a
floating element type: if length(v) == 0 (exact comparison) return the
default-constructed zero vector, else return v / length(v). -/
noncomputable def normalizedReal (v : Vector ℝ) : Vector ℝ :=
  if lengthReal v = 0 then ⟨0, 0⟩ else v.divScalar (lengthReal v)

/-- Geometry helper normalized(const Vector<T>&) from vector.hpp at T = int:
the same guard, with the division performed by C++ integer division. -/
def normalizedInt (v : Vector Int) : Vector Int :=
  if lengthInt v = 0 then ⟨0, 0⟩ else v.divScalarInt (lengthInt v)

/-- Claim C4: for every point p and vector v, (p + v) - v == p and
(p - v) + v == p; and for all points p, q the difference p - q is a Vector
(witnessed by the type of Point.subPoint) with q + (p - q) == p. -/
theorem c4_translation_roundtrip (α : Type) [AddCommGroup α]
    (p q : Point α) (v : Vector α) :
    (p.addVector v).subVector v = p ∧ (p.subVector v).addVector v = p ∧
      q.addVector (p.subPoint q) = p := by
  refine ⟨?_, ?_, ?_⟩ <;> ext <;>
    simp [Point.addVector, Point.subVector, Point.subPoint]

/-- Claim C5: vector addition is associative and commutative,
for vectors over any commutative additive element type. -/
theorem c5_add_assoc_comm (α : Type) [AddCommMonoid α] (a b c : Vector α) :
    (a.add b).add c = a.add (b.add c) ∧ a.add b = b.add a := by
  constructor <;> ext <;> simp [Vector.add, add_assoc, add_comm, add_left_comm]

/-- Claim C6: for every vector v and scalar s != 0, (v * s) / s == v, exactly,
both at the int instantiation (C++ truncating division is exact here because
s divides v.x * s and v.y * s) and at an exact-arithmetic floating model. -/
theorem c6_scale_roundtrip :
    (∀ (v : Vector Int) (s : Int), s ≠ 0 → (v.mulScalar s).divScalarInt s = v) ∧
    (∀ (v : Vector ℝ) (s : ℝ), s ≠ 0 → (v.mulScalar s).divScalar s = v) := by
  constructor
  · intro v s hs
    ext <;> simp [Vector.mulScalar, Vector.divScalarInt, Int.mul_tdiv_cancel _ hs]
  · intro v s hs
    ext <;> simp [Vector.mulScalar, Vector.divScalar, mul_div_cancel_right₀ _ hs]

/-- Witness for C6 at a concrete input. -/
theorem c6_scale_roundtrip_witness :
    ((⟨5, -7⟩ : Vector Int).mulScalar 3).divScalarInt 3 = ⟨5, -7⟩ :=
  c6_scale_roundtrip.1 ⟨5, -7⟩ 3 (by decide)

/-- Claim C7: the comparison <= on Vector and Point is the componentwise
dominance order; it is reflexive and transitive but not total, with (1,2)
and (2,1) mutually incomparable; and < holds iff <= holds and the operands
differ. -/
theorem c7_dominance_order :
    (∀ (α : Type) [Preorder α] (a b c : Vector α),
      (Vector.le a b ↔ a.x ≤ b.x ∧ a.y ≤ b.y) ∧
      Vector.le a a ∧
      (Vector.le a b → Vector.le b c → Vector.le a c) ∧
      (Vector.lt a b ↔ Vector.le a b ∧ a ≠ b)) ∧
    (∀ (α : Type) [Preorder α] (p q r : Point α),
      (Point.le p q ↔ p.x ≤ q.x ∧ p.y ≤ q.y) ∧
      Point.le p p ∧
      (Point.le p q → Point.le q r → Point.le p r) ∧
      (Point.lt p q ↔ Point.le p q ∧ p ≠ q)) ∧
    (¬ Vector.le (⟨1, 2⟩ : Vector Int) ⟨2, 1⟩ ∧
      ¬ Vector.le (⟨2, 1⟩ : Vector Int) ⟨1, 2⟩) ∧
    (¬ Point.le (⟨1, 2⟩ : Point Int) ⟨2, 1⟩ ∧
      ¬ Point.le (⟨2, 1⟩ : Point Int) ⟨1, 2⟩) := by
  refine ⟨?_, ?_, ?_, ?_⟩
  · intro α _ a b c
    exact ⟨Iff.rfl, ⟨le_refl _, le_refl _⟩,
      fun h1 h2 => ⟨le_trans h1.1 h2.1, le_trans h1.2 h2.2⟩, Iff.rfl⟩
  · intro α _ p q r
    exact ⟨Iff.rfl, ⟨le_refl _, le_refl _⟩,
      fun h1 h2 => ⟨le_trans h1.1 h2.1, le_trans h1.2 h2.2⟩, Iff.rfl⟩
  · exact ⟨fun h => absurd h.2 (by decide), fun h => absurd h.1 (by decide)⟩
  · exact ⟨fun h => absurd h.2 (by decide), fun h => absurd h.1 (by decide)⟩

/-- Witness for C7 at concrete inputs, exercising transitivity. -/
theorem c7_dominance_order_witness :
    Vector.le (⟨0, 0⟩ : Vector Int) ⟨2, 2⟩ :=
  (c7_dominance_order.1 Int ⟨0, 0⟩ ⟨1, 1⟩ ⟨2, 2⟩).2.2.1
    ⟨by decide, by decide⟩ ⟨by decide, by decide⟩

/-- Claim C9: indexed access returns x at index 0 and y at index 1; for any
index below the asserted bound 2 the access succeeds, and for any index at
or above 2 the assert(idx < 2) guard fires (embedded as none). -/
theorem c9_subscript :
    (∀ (α : Type) (v : Vector α),
      v.subscript 0 = some v.x ∧ v.subscript 1 = some v.y) ∧
    (∀ (α : Type) (p : Point α),
      p.subscript 0 = some p.x ∧ p.subscript 1 = some p.y) ∧
    (∀ (α : Type) (v : Vector α) (idx : Nat),
      idx < 2 → (v.subscript idx).isSome = true) ∧
    (∀ (α : Type) (p : Point α) (idx : Nat),
      idx < 2 → (p.subscript idx).isSome = true) ∧
    (∀ (α : Type) (v : Vector α) (idx : Nat),
      2 ≤ idx → v.subscript idx = none) ∧
    (∀ (α : Type) (p : Point α) (idx : Nat),
      2 ≤ idx → p.subscript idx = none) := by
  refine ⟨?_, ?_, ?_, ?_, ?_, ?_⟩ <;> intros <;>
    simp_all [Vector.subscript, Point.subscript]

/-- Witness for C9 at a concrete input. -/
theorem c9_subscript_witness :
    (((⟨5, 6⟩ : Vector Int).subscript 1).isSome = true) :=
  c9_subscript.2.2.1 Int ⟨5, 6⟩ 1 (by decide)

/-- Claim C10: each compound-assignment operator agrees with its binary
counterpart at a common element type: the value stored in (and returned
from) the left operand after the compound form is the value the binary
operator computes from the old operands. -/
theorem c10_compound_assign (α : Type) [Add α] [Sub α] [Mul α] [Div α]
    (a b : Vector α) (s : α) (p : Point α) (v : Vector α) :
    a.addAssign b = a.add b ∧ a.subAssign b = a.sub b ∧
      a.mulAssign s = a.mulScalar s ∧ a.divAssign s = a.divScalar s ∧
      p.addAssign v = p.addVector v ∧ p.subAssign v = p.subVector v :=
  ⟨rfl, rfl, rfl, rfl, rfl, rfl⟩

/-- Helper: over a linear order, the tuple comparison of Vector.keyLess is
the compare-x-first, tie-break-on-y strict lexicographic order. -/
theorem keyLess_iff_vector {α : Type} [LinearOrder α] (a b : Vector α) :
    Vector.keyLess a b ↔ a.x < b.x ∨ (a.x = b.x ∧ a.y < b.y) := by
  unfold Vector.keyLess
  constructor
  · rintro (h | ⟨h1, h2⟩)
    · exact Or.inl h
    · rcases lt_or_eq_of_le (not_lt.mp h1) with h3 | h3
      · exact Or.inl h3
      · exact Or.inr ⟨h3, h2⟩
  · rintro (h | ⟨h1, h2⟩)
    · exact Or.inl h
    · exact Or.inr ⟨by simp [h1], h2⟩

/-- Helper: the Point version of keyLess_iff_vector. -/
theorem keyLess_iff_point {α : Type} [LinearOrder α] (p q : Point α) :
    Point.keyLess p q ↔ p.x < q.x ∨ (p.x = q.x ∧ p.y < q.y) := by
  unfold Point.keyLess
  constructor
  · rintro (h | ⟨h1, h2⟩)
    · exact Or.inl h
    · rcases lt_or_eq_of_le (not_lt.mp h1) with h3 | h3
      · exact Or.inl h3
      · exact Or.inr ⟨h3, h2⟩
  · rintro (h | ⟨h1, h2⟩)
    · exact Or.inl h
    · exact Or.inr ⟨by simp [h1], h2⟩

/-- Claim C8: the std::less sort-key comparison on Vector and Point is the
strict lexicographic total order comparing x first and breaking ties on y
(irreflexive, transitive, total on distinct values); sorting
[Point{2,1}, Point{1,5}, Point{1,2}] with it yields
[Point{1,2}, Point{1,5}, Point{2,1}] (stated as: the output is a sorted
permutation of the input); and it differs from the dominance operators. -/
theorem c8_lexicographic_order :
    (∀ (α : Type) [LinearOrder α] (a b c : Vector α),
      (Vector.keyLess a b ↔ a.x < b.x ∨ (a.x = b.x ∧ a.y < b.y)) ∧
      ¬ Vector.keyLess a a ∧
      (Vector.keyLess a b → Vector.keyLess b c → Vector.keyLess a c) ∧
      (a ≠ b → Vector.keyLess a b ∨ Vector.keyLess b a)) ∧
    (∀ (α : Type) [LinearOrder α] (p q r : Point α),
      (Point.keyLess p q ↔ p.x < q.x ∨ (p.x = q.x ∧ p.y < q.y)) ∧
      ¬ Point.keyLess p p ∧
      (Point.keyLess p q → Point.keyLess q r → Point.keyLess p r) ∧
      (p ≠ q → Point.keyLess p q ∨ Point.keyLess q p)) ∧
    (List.Pairwise Point.keyLess [(⟨1, 2⟩ : Point Int), ⟨1, 5⟩, ⟨2, 1⟩] ∧
      List.Perm [(⟨2, 1⟩ : Point Int), ⟨1, 5⟩, ⟨1, 2⟩] [⟨1, 2⟩, ⟨1, 5⟩, ⟨2, 1⟩]) ∧
    (Vector.keyLess (⟨1, 5⟩ : Vector Int) ⟨2, 1⟩ ∧
      ¬ Vector.lt (⟨1, 5⟩ : Vector Int) ⟨2, 1⟩ ∧
      Point.keyLess (⟨1, 5⟩ : Point Int) ⟨2, 1⟩ ∧
      ¬ Point.lt (⟨1, 5⟩ : Point Int) ⟨2, 1⟩) := by
  refine ⟨?_, ?_, ?_, ?_⟩
  · intro α _ a b c
    refine ⟨keyLess_iff_vector a b, ?_, ?_, ?_⟩
    · simp [keyLess_iff_vector]
    · intro h1 h2
      rw [keyLess_iff_vector] at h1 h2 ⊢
      rcases h1 with h1 | ⟨e1, l1⟩ <;> rcases h2 with h2 | ⟨e2, l2⟩
      · exact Or.inl (lt_trans h1 h2)
      · exact Or.inl (by rw [← e2]; exact h1)
      · exact Or.inl (by rw [e1]; exact h2)
      · exact Or.inr ⟨e1.trans e2, lt_trans l1 l2⟩
    · intro hne
      rw [keyLess_iff_vector, keyLess_iff_vector]
      rcases lt_trichotomy a.x b.x with h | h | h
      · exact Or.inl (Or.inl h)
      · rcases lt_trichotomy a.y b.y with hy | hy | hy
        · exact Or.inl (Or.inr ⟨h, hy⟩)
        · exact absurd (Vector.ext h hy) hne
        · exact Or.inr (Or.inr ⟨h.symm, hy⟩)
      · exact Or.inr (Or.inl h)
  · intro α _ p q r
    refine ⟨keyLess_iff_point p q, ?_, ?_, ?_⟩
    · simp [keyLess_iff_point]
    · intro h1 h2
      rw [keyLess_iff_point] at h1 h2 ⊢
      rcases h1 with h1 | ⟨e1, l1⟩ <;> rcases h2 with h2 | ⟨e2, l2⟩
      · exact Or.inl (lt_trans h1 h2)
      · exact Or.inl (by rw [← e2]; exact h1)
      · exact Or.inl (by rw [e1]; exact h2)
      · exact Or.inr ⟨e1.trans e2, lt_trans l1 l2⟩
    · intro hne
      rw [keyLess_iff_point, keyLess_iff_point]
      rcases lt_trichotomy p.x q.x with h | h | h
      · exact Or.inl (Or.inl h)
      · rcases lt_trichotomy p.y q.y with hy | hy | hy
        · exact Or.inl (Or.inr ⟨h, hy⟩)
        · exact absurd (Point.ext h hy) hne
        · exact Or.inr (Or.inr ⟨h.symm, hy⟩)
      · exact Or.inr (Or.inl h)
  · constructor
    · norm_num [List.pairwise_cons, Point.keyLess]
    · decide
  · refine ⟨Or.inl (by decide), fun h => absurd h.1.2 (by decide),
      Or.inl (by decide), fun h => absurd h.1.2 (by decide)⟩

/-- Witness for C8 at concrete inputs, exercising totality on distinct
values. -/
theorem c8_lexicographic_order_witness :
    Vector.keyLess (⟨1, 2⟩ : Vector Int) ⟨1, 5⟩ ∨
      Vector.keyLess (⟨1, 5⟩ : Vector Int) ⟨1, 2⟩ :=
  (c8_lexicographic_order.1 Int ⟨1, 2⟩ ⟨1, 5⟩ ⟨1, 5⟩).2.2.2 (by decide)

/-- Helper: the integer square root of 25 is 5. -/
theorem nat_sqrt_25 : Nat.sqrt 25 = 5 :=
  (Nat.eq_sqrt.mpr (by norm_num)).symm

/-- Helper: the int instantiation of length at the vector (3, 4). -/
theorem lengthInt_three_four : lengthInt ⟨3, 4⟩ = 5 := by
  show Int.ofNat (Nat.sqrt ((3 * 3 + 4 * 4 : Int)).toNat) = 5
  rw [show ((3 * 3 + 4 * 4 : Int)).toNat = 25 from by decide, nat_sqrt_25]
  decide

/-- Counterexample to claim C1: over the integral element type int, the
nonzero vector (3, 4) normalizes to (0, 0) (each component divides by the
length 5 and truncates to 0), so the length of its normalization is 0,
not approximately 1. -/
theorem c1_counterexample :
    (⟨3, 4⟩ : Vector Int) ≠ ⟨0, 0⟩ ∧
      lengthInt (normalizedInt ⟨3, 4⟩) = 0 ∧
      lengthInt (normalizedInt ⟨3, 4⟩) ≠ 1 := by
  have hnorm : normalizedInt ⟨3, 4⟩ = ⟨0, 0⟩ := by
    simp only [normalizedInt, lengthInt_three_four]
    decide
  rw [hnorm]
  refine ⟨by decide, by decide, by decide⟩

/-- Claim C1 as amended: in the exact-arithmetic (real) model of a floating
element type, every nonzero vector normalizes to a vector of length exactly
1; the zero vector normalizes to the zero vector exactly, at the floating
model and at the int instantiation alike. (For integral element types the
unit-length part fails: see the counterexample at (3, 4).) -/
theorem c1_unit_length :
    (∀ v : Vector ℝ, v ≠ ⟨0, 0⟩ → lengthReal (normalizedReal v) = 1) ∧
      normalizedReal ⟨0, 0⟩ = ⟨0, 0⟩ ∧ normalizedInt ⟨0, 0⟩ = ⟨0, 0⟩ := by
  refine ⟨?_, ?_, by decide⟩
  · intro v hv
    have hxy : v.x ≠ 0 ∨ v.y ≠ 0 := by
      by_contra h
      push_neg at h
      exact hv (Vector.ext h.1 h.2)
    have hs : 0 < v.x * v.x + v.y * v.y := by
      rcases hxy with hx | hy
      · exact add_pos_of_pos_of_nonneg (mul_self_pos.mpr hx) (mul_self_nonneg _)
      · exact add_pos_of_nonneg_of_pos (mul_self_nonneg _) (mul_self_pos.mpr hy)
    have hl : 0 < lengthReal v := Real.sqrt_pos.mpr hs
    have hl0 : lengthReal v ≠ 0 := ne_of_gt hl
    have hmul : lengthReal v * lengthReal v = v.x * v.x + v.y * v.y :=
      Real.mul_self_sqrt hs.le
    unfold normalizedReal
    rw [if_neg hl0]
    show Real.sqrt ((v.divScalar (lengthReal v)).x * (v.divScalar (lengthReal v)).x +
      (v.divScalar (lengthReal v)).y * (v.divScalar (lengthReal v)).y) = 1
    simp only [Vector.divScalar]
    have harg : v.x / lengthReal v * (v.x / lengthReal v) +
        v.y / lengthReal v * (v.y / lengthReal v) = 1 := by
      rw [div_mul_div_comm, div_mul_div_comm, div_add_div_same, hmul]
      exact div_self (ne_of_gt hs)
    rw [harg, Real.sqrt_one]
  · have h0 : lengthReal ⟨0, 0⟩ = 0 := by
      show Real.sqrt ((0 : ℝ) * 0 + 0 * 0) = 0
      norm_num
    unfold normalizedReal
    rw [if_pos h0]

/-- Witness for the amended claim C1 at a concrete input. -/
theorem c1_unit_length_witness :
    lengthReal (normalizedReal ⟨3, 4⟩) = 1 :=
  c1_unit_length.1 ⟨3, 4⟩ (by
    intro h
    exact three_ne_zero (congrArg Vector.x h))

/-- Claim C2: normalized returns the zero vector exactly when the length is
zero (tested by exact equality), and otherwise returns v divided
componentwise by length(v); the division is reached only under the
hypothesis that the length is nonzero, so normalized never divides by
zero. Stated at the floating (exact real) model and at the int
instantiation. -/
theorem c2_normalized_zero_guard :
    (∀ v : Vector ℝ,
      (lengthReal v = 0 → normalizedReal v = ⟨0, 0⟩) ∧
      (lengthReal v ≠ 0 → normalizedReal v = v.divScalar (lengthReal v))) ∧
    (∀ v : Vector Int,
      (lengthInt v = 0 → normalizedInt v = ⟨0, 0⟩) ∧
      (lengthInt v ≠ 0 → normalizedInt v = v.divScalarInt (lengthInt v))) := by
  constructor
  · intro v
    constructor
    · intro h
      unfold normalizedReal
      rw [if_pos h]
    · intro h
      unfold normalizedReal
      rw [if_neg h]
  · intro v
    constructor
    · intro h
      unfold normalizedInt
      rw [if_pos h]
    · intro h
      unfold normalizedInt
      rw [if_neg h]

/-- Witness for C2 at concrete inputs: the zero vector takes the guard
branch, and a nonzero vector takes the division branch. -/
theorem c2_normalized_zero_guard_witness :
    normalizedInt ⟨0, 0⟩ = ⟨0, 0⟩ ∧
      normalizedInt ⟨3, 4⟩ = (⟨3, 4⟩ : Vector Int).divScalarInt (lengthInt ⟨3, 4⟩) :=
  ⟨(c2_normalized_zero_guard.2 ⟨0, 0⟩).1 (by decide),
    (c2_normalized_zero_guard.2 ⟨3, 4⟩).2 (by rw [lengthInt_three_four]; decide)⟩

/-- Claim C3: length(v) is sqrt(x * x + y * y) carried back to the element
type: at the floating (exact real) model it is the nonnegative real square
root of the sum of squares; at the int instantiation it is the truncated
square root (the unique nonnegative integer whose square is at most the sum
of squares while the next square exceeds it); and length of the
double vector (3, 4) is exactly 5. -/
theorem c3_length_is_sqrt :
    (∀ v : Vector ℝ, 0 ≤ lengthReal v ∧
      lengthReal v * lengthReal v = v.x * v.x + v.y * v.y) ∧
    (∀ v : Vector Int, 0 ≤ lengthInt v ∧
      lengthInt v * lengthInt v ≤ v.x * v.x + v.y * v.y ∧
      v.x * v.x + v.y * v.y < (lengthInt v + 1) * (lengthInt v + 1)) ∧
    lengthReal ⟨3, 4⟩ = 5 := by
  refine ⟨?_, ?_, ?_⟩
  · intro v
    exact ⟨Real.sqrt_nonneg _,
      Real.mul_self_sqrt (add_nonneg (mul_self_nonneg _) (mul_self_nonneg _))⟩
  · intro v
    have hX : (0 : Int) ≤ v.x * v.x + v.y * v.y :=
      add_nonneg (mul_self_nonneg _) (mul_self_nonneg _)
    have h1 := Nat.sqrt_le (v.x * v.x + v.y * v.y).toNat
    have h2 := Nat.lt_succ_sqrt (v.x * v.x + v.y * v.y).toNat
    refine ⟨Int.ofNat_nonneg _, ?_, ?_⟩
    · show (Nat.sqrt (v.x * v.x + v.y * v.y).toNat : Int) *
        (Nat.sqrt (v.x * v.x + v.y * v.y).toNat : Int) ≤ _
      zify at h1
      rwa [Int.toNat_of_nonneg hX] at h1
    · show _ < ((Nat.sqrt (v.x * v.x + v.y * v.y).toNat : Int) + 1) *
        ((Nat.sqrt (v.x * v.x + v.y * v.y).toNat : Int) + 1)
      zify at h2
      rwa [Int.toNat_of_nonneg hX] at h2
  · show Real.sqrt ((3 : ℝ) * 3 + 4 * 4) = 5
    rw [show (3 : ℝ) * 3 + 4 * 4 = 5 ^ 2 by norm_num]
    exact Real.sqrt_sq (by norm_num)

end ecosnail.flat
